import Mathlib

/-!
Verification of the fractal-drawing L-system repository.

This file gives a shallow embedding of the repository's grammar engine,
expression evaluator, tokenizer and 2-D turtle interpreter, and proves or
refutes the specification claims about them.

Modelling conventions:
* Python numbers (floats/ints) are modelled as exact rationals `ℚ`;
  floating-point rounding and the int/float distinction are abstracted away.
  No settled claim depends on either.
* Python exceptions are modelled with `Except`/`Option`.
* Python expression strings appear here as already-parsed abstract syntax
  (`PyExpr`); the parsing step `ast.parse` is not modelled.  Strings that do
  not parse raise `SyntaxError` in the source, which the callers treat the
  same way as an evaluation failure.
* The `random`-module generators called by the evaluator are modelled by an
  explicit `RandomModel` of deterministic stand-ins; every theorem below is
  universally quantified over that model, and no claim depends on the
  distribution of the generated numbers.
-/

/-! ## Python values and operators (src/utils/lambda_parser.py) -/

/-- A Python runtime value flowing through the expression evaluator:
a number (modelled as `ℚ`) or a boolean. -/
inductive PyVal where
  | num (q : ℚ)
  | bool (b : Bool)
deriving Repr, DecidableEq

/-- Python arithmetic treats `bool` as an integer (`True == 1`, `False == 0`). -/
def PyVal.asNum : PyVal → ℚ
  | .num q => q
  | .bool b => if b then 1 else 0

/-- Binary operator node kinds of the Python `ast` module (the ones the
repository's expressions can contain). -/
inductive PyBinOp where
  | add | sub | mul | div | mod | pow
  | floordiv | lshift | rshift | bitOr | bitXor | bitAnd | matmul
deriving Repr, DecidableEq

/-- Unary operator node kinds of the Python `ast` module. -/
inductive PyUnaryOp where
  | usub | uadd | notOp | invert
deriving Repr, DecidableEq

/-- Comparison operator node kinds (`ast.Compare`); the evaluator whitelists
none of these. -/
inductive PyCmpOp where
  | lt | le | gt | ge | eq | ne
deriving Repr, DecidableEq

/-- `SafeLambdaParser.SAFE_OPERATORS` membership for binary operators:
`Add, Sub, Mult, Div, Mod, Pow`. -/
def safeBinOp : PyBinOp → Bool
  | .add | .sub | .mul | .div | .mod | .pow => true
  | _ => false

/-- `SafeLambdaParser.SAFE_OPERATORS` membership for unary operators:
`USub, UAdd`. -/
def safeUnaryOp : PyUnaryOp → Bool
  | .usub | .uadd => true
  | _ => false

/-- Python `%` on numbers: result `a - b * ⌊a / b⌋` (sign of the divisor). -/
def pymod (a b : ℚ) : ℚ := a - b * ⌊a / b⌋

/-- Python `int()` truncation toward zero on a rational. -/
def pyTrunc (q : ℚ) : ℤ := Int.tdiv q.num q.den

/-- Python `round()` with one argument: banker's rounding (half to even). -/
def pyRound (q : ℚ) : ℤ :=
  let f : ℤ := ⌊q⌋
  let r : ℚ := q - f
  if r < 1/2 then f
  else if 1/2 < r then f + 1
  else if f % 2 = 0 then f else f + 1

/-- Semantics of a whitelisted binary operator on numbers.  `none` models a
runtime exception (`ZeroDivisionError`) or a case outside the modelled
fragment (`**` with a non-integer exponent, the integer-only bit operators). -/
def applyBinOpNum : PyBinOp → ℚ → ℚ → Option ℚ
  | .add, a, b => some (a + b)
  | .sub, a, b => some (a - b)
  | .mul, a, b => some (a * b)
  | .div, a, b => if b = 0 then none else some (a / b)
  | .mod, a, b => if b = 0 then none else some (pymod a b)
  | .pow, a, b =>
      if b.den = 1 then
        if a = 0 ∧ b.num < 0 then none else some (a ^ b.num)
      else none
  | .floordiv, a, b => if b = 0 then none else some (⌊a / b⌋ : ℤ)
  | _, _, _ => none

/-! ## Python expression AST

`SafeLambdaParser._eval_node` dispatches on the shape of an `ast` node; the
constructors below mirror the node shapes its expressions can have.
`otherNode` stands for every remaining shape (comprehensions, subscripts,
lambdas, strings, ...), which `_eval_node` rejects uniformly. -/

/-- How the function position of an `ast.Call` can look
(`SafeLambdaParser._get_func_name`): a bare name, an attribute access
(`random.triangular`; the source returns `node.attr` for any attribute
access, whatever its base expression is), or anything else (which raises). -/
inductive FuncRef where
  | byName (s : String)
  | byAttr (base : Option String) (attr : String)
  | exprFunc
deriving Repr, DecidableEq

mutual
/-- Abstract syntax of a parsed Python expression, restricted to the node
shapes distinguishable by `SafeLambdaParser._eval_node`. -/
inductive PyExpr where
  | constant (q : ℚ)
  | constBool (b : Bool)
  | name (s : String)
  | binOp (op : PyBinOp) (l r : PyExpr)
  | unaryOp (op : PyUnaryOp) (e : PyExpr)
  | call (f : FuncRef) (args : PyArgs) (kwargs : PyKwargs)
  | compare (l : PyExpr) (op : PyCmpOp) (r : PyExpr)
  | attribute (e : PyExpr) (attr : String)
  | otherNode (desc : String)
deriving Repr, DecidableEq

/-- Positional arguments of a call node. -/
inductive PyArgs where
  | nil
  | cons (a : PyExpr) (rest : PyArgs)
deriving Repr, DecidableEq

/-- Keyword arguments of a call node. -/
inductive PyKwargs where
  | nil
  | cons (key : String) (v : PyExpr) (rest : PyKwargs)
deriving Repr, DecidableEq
end

/-- The keys of `SafeLambdaParser.SAFE_FUNCTIONS`. -/
def SAFE_FUNCTION_NAMES : List String :=
  ["abs", "min", "max", "round", "int", "float",
   "random", "uniform", "triangular", "randint", "gauss"]

/-- `SafeLambdaParser._get_func_name`: resolve the function position of a
call to a plain name (`none` models the `ValueError` raised for unsupported
function shapes). -/
def getFuncName : FuncRef → Option String
  | .byName s => some s
  | .byAttr _ a => some a
  | .exprFunc => none

/-- Deterministic stand-ins for the `random`-module generators in
`SAFE_FUNCTIONS`.  Theorems are quantified over this model; no claim depends
on the values produced. -/
structure RandomModel where
  random : ℚ
  uniform : ℚ → ℚ → ℚ
  triangular2 : ℚ → ℚ → ℚ
  triangular3 : ℚ → ℚ → ℚ → ℚ
  randint : ℚ → ℚ → ℚ
  gauss : ℚ → ℚ → ℚ

/-- Variable bindings: parameter name ↦ bound value (the `bindings` dict of
`dynamic_lambda`). -/
abbrev Bindings := List (String × PyVal)

/-- Dictionary lookup in the bindings. -/
def Bindings.lookupName (b : Bindings) (s : String) : Option PyVal :=
  match b with
  | [] => none
  | (k, v) :: rest => if k = s then some v else Bindings.lookupName rest s

/-- Application of a `SAFE_FUNCTIONS` entry to evaluated arguments.
Arity errors are `Except.error` (Python `TypeError`); keyword arguments are
outside the modelled fragment and error.  The `min`/`max` of a single number
is a `TypeError` in Python (a number is not iterable). -/
def applyFunc (rnd : RandomModel) (fn : String) (args : List PyVal)
    (kwargs : List (String × PyVal)) : Except String PyVal :=
  if kwargs ≠ [] then .error "keyword arguments outside modelled fragment"
  else
    match fn, args with
    | "abs", [v] => .ok (.num |v.asNum|)
    | "min", v :: rest =>
        if rest = [] then .error "TypeError: number is not iterable"
        else .ok (.num ((rest.map PyVal.asNum).foldl min v.asNum))
    | "max", v :: rest =>
        if rest = [] then .error "TypeError: number is not iterable"
        else .ok (.num ((rest.map PyVal.asNum).foldl max v.asNum))
    | "round", [v] => .ok (.num (pyRound v.asNum))
    | "int", [v] => .ok (.num (pyTrunc v.asNum))
    | "float", [v] => .ok (.num v.asNum)
    | "random", [] => .ok (.num rnd.random)
    | "uniform", [a, b] => .ok (.num (rnd.uniform a.asNum b.asNum))
    | "triangular", [a, b] => .ok (.num (rnd.triangular2 a.asNum b.asNum))
    | "triangular", [a, b, c] =>
        .ok (.num (rnd.triangular3 a.asNum b.asNum c.asNum))
    | "randint", [a, b] => .ok (.num (rnd.randint a.asNum b.asNum))
    | "gauss", [a, b] => .ok (.num (rnd.gauss a.asNum b.asNum))
    | _, _ => .error "TypeError: bad arity"

mutual
/-- `SafeLambdaParser._eval_node`: recursively evaluate an AST node under a
whitelist.  Constants are returned; names are looked up in the bindings
(`NameError` if unbound); binary/unary operations first evaluate their
operands, then require the operator to be in `SAFE_OPERATORS`; calls resolve
the function name, require it to be in `SAFE_FUNCTIONS`, then evaluate the
positional and keyword arguments; every other node shape raises. -/
def evalNode (rnd : RandomModel) (b : Bindings) : PyExpr → Except String PyVal
  | .constant q => .ok (.num q)
  | .constBool v => .ok (.bool v)
  | .name s =>
      match b.lookupName s with
      | some v => .ok v
      | none => .error "NameError: variable not found"
  | .binOp op l r => do
      let lv ← evalNode rnd b l
      let rv ← evalNode rnd b r
      if safeBinOp op then
        match applyBinOpNum op lv.asNum rv.asNum with
        | some q => .ok (.num q)
        | none => .error "arithmetic error"
      else .error "Unsupported operation"
  | .unaryOp op e => do
      let v ← evalNode rnd b e
      match op with
      | .usub => .ok (.num (-v.asNum))
      | .uadd => .ok (.num v.asNum)
      | _ => .error "Unsupported unary operation"
  | .call f args kwargs => do
      match getFuncName f with
      | none => .error "Unsupported function call type"
      | some fn =>
          if SAFE_FUNCTION_NAMES.contains fn then do
            let vs ← evalArgs rnd b args
            let kvs ← evalKwargs rnd b kwargs
            applyFunc rnd fn vs kvs
          else .error "Function not allowed"
  | .compare _ _ _ => .error "Unsupported AST node type: Compare"
  | .attribute _ _ => .error "Unsupported AST node type: Attribute"
  | .otherNode d => .error ("Unsupported AST node type: " ++ d)

/-- Evaluate the positional arguments of a call, left to right, propagating
the first failure. -/
def evalArgs (rnd : RandomModel) (b : Bindings) :
    PyArgs → Except String (List PyVal)
  | .nil => .ok []
  | .cons a rest => do
      let v ← evalNode rnd b a
      let vs ← evalArgs rnd b rest
      .ok (v :: vs)

/-- Evaluate the keyword arguments of a call, propagating failures. -/
def evalKwargs (rnd : RandomModel) (b : Bindings) :
    PyKwargs → Except String (List (String × PyVal))
  | .nil => .ok []
  | .cons k a rest => do
      let v ← evalNode rnd b a
      let vs ← evalKwargs rnd b rest
      .ok ((k, v) :: vs)
end

mutual
/-- An expression *contains a construct outside the evaluator's whitelist*,
relative to a list of bound parameter names: a comparison, an attribute
access, any other non-whitelisted node shape, a non-whitelisted operator, a
call whose function is not in `SAFE_FUNCTIONS`, or an identifier that is not
a bound parameter — in any subexpression. -/
def unsupported (bs : List String) : PyExpr → Bool
  | .constant _ => false
  | .constBool _ => false
  | .name s => !bs.contains s
  | .binOp op l r => !safeBinOp op || unsupported bs l || unsupported bs r
  | .unaryOp op e => !safeUnaryOp op || unsupported bs e
  | .call f args kwargs =>
      (match getFuncName f with
       | none => true
       | some fn => !SAFE_FUNCTION_NAMES.contains fn)
      || unsupportedArgs bs args || unsupportedKwargs bs kwargs
  | .compare _ _ _ => true
  | .attribute _ _ => true
  | .otherNode _ => true

/-- `unsupported` over positional argument lists. -/
def unsupportedArgs (bs : List String) : PyArgs → Bool
  | .nil => false
  | .cons a rest => unsupported bs a || unsupportedArgs bs rest

/-- `unsupported` over keyword argument lists. -/
def unsupportedKwargs (bs : List String) : PyKwargs → Bool
  | .nil => false
  | .cons _ a rest => unsupported bs a || unsupportedKwargs bs rest
end

/-- Keys of a bindings list. -/
def Bindings.keys (b : Bindings) : List String := b.map Prod.fst

/-- `true` iff the evaluation raised (an `Except.error`). -/
def isFailure {α : Type} : Except String α → Bool
  | .error _ => true
  | .ok _ => false

theorem except_bind_ok {α β : Type} (a : α) (f : α → Except String β) :
    (Except.ok a >>= f) = f a := rfl

theorem except_bind_err {α β : Type} (e : String) (f : α → Except String β) :
    ((Except.error e : Except String α) >>= f) = Except.error e := rfl

theorem lookupName_eq_none (b : Bindings) (s : String)
    (h : s ∉ b.keys) : b.lookupName s = none := by
  induction b with
  | nil => rfl
  | cons kv rest ih =>
      simp only [Bindings.keys, List.map_cons, List.mem_cons, not_or] at h
      obtain ⟨h1, h2⟩ := h
      unfold Bindings.lookupName
      rw [if_neg (fun he => h1 he.symm)]
      exact ih (by simpa [Bindings.keys] using h2)

mutual
/-- Any expression containing a non-whitelisted construct makes
`SafeLambdaParser._eval_node` raise rather than return a value. -/
theorem unsupported_evalNode_errs (rnd : RandomModel) (b : Bindings) :
    ∀ e : PyExpr, unsupported b.keys e = true →
      isFailure (evalNode rnd b e) = true := fun e h =>
  match e with
  | .constant _ => by simp [unsupported] at h
  | .constBool _ => by simp [unsupported] at h
  | .name s => by
      simp only [unsupported, Bool.not_eq_true'] at h
      have hs : s ∉ b.keys := by simpa using h
      simp [evalNode, lookupName_eq_none b s hs, isFailure]
  | .binOp op l r => by
      simp only [unsupported, Bool.or_eq_true, Bool.not_eq_true'] at h
      cases hl : evalNode rnd b l with
      | error e => simp [evalNode, hl, except_bind_err, isFailure]
      | ok lv =>
          cases hul : unsupported b.keys l with
          | true =>
              have hx := unsupported_evalNode_errs rnd b l hul
              rw [hl] at hx; exact absurd hx (by simp [isFailure])
          | false =>
              cases hr : evalNode rnd b r with
              | error e =>
                  simp [evalNode, hl, hr, except_bind_ok, except_bind_err, isFailure]
              | ok rv =>
                  cases hur : unsupported b.keys r with
                  | true =>
                      have hx := unsupported_evalNode_errs rnd b r hur
                      rw [hr] at hx; exact absurd hx (by simp [isFailure])
                  | false =>
                      have hop : safeBinOp op = false := by
                        rcases h with (h | h) | h
                        · exact h
                        · rw [hul] at h; exact absurd h (by decide)
                        · rw [hur] at h; exact absurd h (by decide)
                      simp [evalNode, hl, hr, except_bind_ok, hop, isFailure]
  | .unaryOp op e' => by
      simp only [unsupported, Bool.or_eq_true, Bool.not_eq_true'] at h
      cases he : evalNode rnd b e' with
      | error e => simp [evalNode, he, except_bind_err, isFailure]
      | ok v =>
          cases hue : unsupported b.keys e' with
          | true =>
              have hx := unsupported_evalNode_errs rnd b e' hue
              rw [he] at hx; exact absurd hx (by simp [isFailure])
          | false =>
              have hop : safeUnaryOp op = false := by
                rcases h with h | h
                · exact h
                · rw [hue] at h; exact absurd h (by decide)
              cases op <;> simp [evalNode, he, except_bind_ok, isFailure] <;>
                exact absurd hop (by decide)
  | .call f args kwargs => by
      cases hf : getFuncName f with
      | none => simp [evalNode, hf, isFailure]
      | some fn =>
          by_cases hc : fn ∈ SAFE_FUNCTION_NAMES
          · simp only [unsupported, hf, Bool.or_eq_true] at h
            cases hargs : evalArgs rnd b args with
            | error e => simp [evalNode, hf, hc, hargs, except_bind_err, isFailure]
            | ok vs =>
                cases hua : unsupportedArgs b.keys args with
                | true =>
                    have hx := unsupported_evalArgs_errs rnd b args hua
                    rw [hargs] at hx; exact absurd hx (by simp [isFailure])
                | false =>
                    cases hkw : evalKwargs rnd b kwargs with
                    | error e =>
                        simp [evalNode, hf, hc, hargs, hkw, except_bind_ok,
                          except_bind_err, isFailure]
                    | ok kvs =>
                        exfalso
                        rcases h with (h | h) | h
                        · simp [hc] at h
                        · rw [hua] at h; exact absurd h (by decide)
                        · have hx := unsupported_evalKwargs_errs rnd b kwargs h
                          rw [hkw] at hx; exact absurd hx (by simp [isFailure])
          · simp [evalNode, hf, hc, isFailure]
  | .compare _ _ _ => by simp [evalNode, isFailure]
  | .attribute _ _ => by simp [evalNode, isFailure]
  | .otherNode _ => by simp [evalNode, isFailure]

/-- Argument-list version of `unsupported_evalNode_errs`. -/
theorem unsupported_evalArgs_errs (rnd : RandomModel) (b : Bindings) :
    ∀ as : PyArgs, unsupportedArgs b.keys as = true →
      isFailure (evalArgs rnd b as) = true := fun as h =>
  match as with
  | .nil => by simp [unsupportedArgs] at h
  | .cons a rest => by
      simp only [unsupportedArgs, Bool.or_eq_true] at h
      cases ha : evalNode rnd b a with
      | error e => simp [evalArgs, ha, except_bind_err, isFailure]
      | ok v =>
          cases hua : unsupported b.keys a with
          | true =>
              have hx := unsupported_evalNode_errs rnd b a hua
              rw [ha] at hx; exact absurd hx (by simp [isFailure])
          | false =>
              cases hrest : evalArgs rnd b rest with
              | error e =>
                  simp [evalArgs, ha, hrest, except_bind_ok, except_bind_err, isFailure]
              | ok vs =>
                  exfalso
                  rcases h with h | h
                  · rw [hua] at h; exact absurd h (by decide)
                  · have hx := unsupported_evalArgs_errs rnd b rest h
                    rw [hrest] at hx; exact absurd hx (by simp [isFailure])

/-- Keyword-argument version of `unsupported_evalNode_errs`. -/
theorem unsupported_evalKwargs_errs (rnd : RandomModel) (b : Bindings) :
    ∀ ks : PyKwargs, unsupportedKwargs b.keys ks = true →
      isFailure (evalKwargs rnd b ks) = true := fun ks h =>
  match ks with
  | .nil => by simp [unsupportedKwargs] at h
  | .cons k a rest => by
      simp only [unsupportedKwargs, Bool.or_eq_true] at h
      cases ha : evalNode rnd b a with
      | error e => simp [evalKwargs, ha, except_bind_err, isFailure]
      | ok v =>
          cases hua : unsupported b.keys a with
          | true =>
              have hx := unsupported_evalNode_errs rnd b a hua
              rw [ha] at hx; exact absurd hx (by simp [isFailure])
          | false =>
              cases hrest : evalKwargs rnd b rest with
              | error e =>
                  simp [evalKwargs, ha, hrest, except_bind_ok, except_bind_err, isFailure]
              | ok vs =>
                  exfalso
                  rcases h with h | h
                  · rw [hua] at h; exact absurd h (by decide)
                  · have hx := unsupported_evalKwargs_errs rnd b rest h
                    rw [hrest] at hx; exact absurd hx (by simp [isFailure])
end

/-! ## `LSystemMixin._safe_eval_number` (src/l_system/system_base.py)

The source first tries `ast.literal_eval`, then falls back to the *native*
`eval(expr, dict with empty builtins)`, and finally to `0.0`.  The two
backends are modelled separately so that the fallback chain is visible.
The function receives the parsed expression; the source's empty-string check
and `SyntaxError` on unparsable text both land in the final `0.0` branch and
are outside the AST-level model. -/

/-- `ast.literal_eval` restricted to the shapes relevant here: a numeric or
boolean constant, possibly under a single unary sign applied directly to a
numeric constant (string/container/complex literals are outside the modelled
fragment; on those the source either falls through its `isinstance`
number check or raises, reaching the next backend either way). -/
def pyLiteralEval : PyExpr → Option PyVal
  | .constant q => some (.num q)
  | .constBool b => some (.bool b)
  | .unaryOp .usub (.constant q) => some (.num (-q))
  | .unaryOp .uadd (.constant q) => some (.num q)
  | _ => none

/-- Comparison semantics on numbers. -/
def applyCmpOp : PyCmpOp → ℚ → ℚ → Bool
  | .lt, a, b => a < b
  | .le, a, b => a ≤ b
  | .gt, a, b => b < a
  | .ge, a, b => b ≤ a
  | .eq, a, b => a = b
  | .ne, a, b => a ≠ b

/-- Python's *native* `eval` under `\x7b"__builtins__": \x7b\x7d\x7d`, on the
modelled expression fragment.  Unlike `evalNode` it enforces **no
whitelist**: it happily evaluates comparisons and every arithmetic operator.
Names and calls fail only because the supplied globals are empty
(`NameError`); attribute access and the remaining node shapes are outside
the modelled fragment and conservatively return `none`. -/
def pyEval : PyExpr → Option PyVal
  | .constant q => some (.num q)
  | .constBool b => some (.bool b)
  | .name _ => none
  | .binOp op l r => do
      let lv ← pyEval l
      let rv ← pyEval r
      let q ← applyBinOpNum op lv.asNum rv.asNum
      some (.num q)
  | .unaryOp op e => do
      let v ← pyEval e
      match op with
      | .usub => some (.num (-v.asNum))
      | .uadd => some (.num v.asNum)
      | .notOp => some (.bool (v.asNum = 0))
      | .invert =>
          if v.asNum.den = 1 then some (.num (-(v.asNum + 1))) else none
  | .compare l op r => do
      let lv ← pyEval l
      let rv ← pyEval r
      some (.bool (applyCmpOp op lv.asNum rv.asNum))
  | .call _ _ _ => none
  | .attribute _ _ => none
  | .otherNode _ => none

/-- `LSystemMixin._safe_eval_number`: try `ast.literal_eval` (accepting any
int/float/bool result, converted by `float`), then fall back to the native
`eval` with empty builtins (again converted by `float`), then to `0.0`. -/
def safe_eval_number (e : PyExpr) : ℚ :=
  match pyLiteralEval e with
  | some v => v.asNum
  | none =>
      match pyEval e with
      | some v => v.asNum
      | none => 0

/-! ## Parametric templates (`SafeLambdaParser.parse_lambda_string`)

A template is the brace-split form of strings like `FT(<x*0.9>,<y*0.8>)`:
alternating literal text and placeholder expressions.  The `\x7b\x7b`→`\x7b`
normalisation and the regex split are string-level pre-passes; the model
starts from the split result. -/

/-- One piece of a template: literal text or a `\x7b`-placeholder. -/
inductive Chunk where
  | lit (s : String)
  | hole (e : PyExpr)
deriving Repr, DecidableEq

/-- A parsed template. -/
abbrev Template := List Chunk

mutual
/-- The identifier tokens the `_extract_params` regex scan finds inside a
placeholder expression: every name, function name, attribute base and
attribute name, and every keyword-argument keyword. -/
def identsOf : PyExpr → List String
  | .constant _ => []
  | .constBool _ => []
  | .name s => [s]
  | .binOp _ l r => identsOf l ++ identsOf r
  | .unaryOp _ e => identsOf e
  | .call f args kwargs => funcIdents f ++ identsArgs args ++ identsKwargs kwargs
  | .compare l _ r => identsOf l ++ identsOf r
  | .attribute e a => identsOf e ++ [a]
  | .otherNode _ => []

/-- Identifier tokens in a call's function position. -/
def funcIdents : FuncRef → List String
  | .byName s => [s]
  | .byAttr (some bn) a => [bn, a]
  | .byAttr none a => [a]
  | .exprFunc => []

/-- Identifier tokens in positional arguments. -/
def identsArgs : PyArgs → List String
  | .nil => []
  | .cons a rest => identsOf a ++ identsArgs rest

/-- Identifier tokens in keyword arguments (the keyword itself is an
identifier token in the source text, so the regex finds it too). -/
def identsKwargs : PyKwargs → List String
  | .nil => []
  | .cons k a rest => [k] ++ identsOf a ++ identsKwargs rest
end

/-- Identifier tokens of one template chunk: literal text is not scanned
(`_extract_params` only looks inside the brace placeholders). -/
def chunkIdents : Chunk → List String
  | .lit _ => []
  | .hole e => identsOf e

/-- Lexicographic code-point comparison of character lists (the order
Python's `sorted` uses on strings). -/
def charListLe : List Char → List Char → Bool
  | [], _ => true
  | _ :: _, [] => false
  | c :: cs, d :: ds =>
      if c.val < d.val then true
      else if d.val < c.val then false
      else charListLe cs ds

/-- Lexicographic order on strings by code points. -/
def strLe (a b : String) : Bool := charListLe a.data b.data

/-- Insert into a lexically sorted list (helper for `sortStrings`). -/
def insertSorted (s : String) : List String → List String
  | [] => [s]
  | t :: ts => if strLe s t then s :: t :: ts else t :: insertSorted s ts

/-- Insertion sort by the lexicographic order on strings — the same sorted
order Python's `sorted` produces, and structurally reducible. -/
def sortStrings : List String → List String
  | [] => []
  | s :: ss => insertSorted s (sortStrings ss)

/-- `SafeLambdaParser._extract_params`: all identifier tokens of all
placeholders, minus `SAFE_FUNCTIONS` names and `random`, deduplicated and
sorted lexically — the sorted list *is* the callable's positional parameter
list. -/
def extractParams (t : Template) : List String :=
  sortStrings (((t.map chunkIdents).flatten.filter
      (fun s => ¬ (s ∈ SAFE_FUNCTION_NAMES ∨ s = "random"))).dedup)

/-- The placeholder expressions of a template, in order. -/
def holesOf (t : Template) : List PyExpr :=
  t.filterMap (fun c => match c with | .hole e => some e | .lit _ => none)

/-- String form `str(result)` of an evaluated placeholder.  Python renders
numbers in decimal; the exact digit string of a non-integral number is
cosmetic and no claim depends on it, so the rational fallback rendering is
used there. -/
def pyStr : PyVal → String
  | .bool b => if b then "True" else "False"
  | .num q =>
      if q.den = 1 then toString q.num
      else toString q.num ++ "/" ++ toString q.den

/-- The `re.sub` replacement loop of `dynamic_lambda`: splice literal chunks
verbatim and evaluated placeholders via `_eval_expr`; the first failing
placeholder raises (`ValueError`), aborting the call. -/
def renderChunks (rnd : RandomModel) (b : Bindings) : Template → Except String String
  | [] => .ok ""
  | .lit s :: rest => do
      let r ← renderChunks rnd b rest
      .ok (s ++ r)
  | .hole e :: rest => do
      let v ← evalNode rnd b e
      let r ← renderChunks rnd b rest
      .ok (pyStr v ++ r)

/-- The callable returned by `SafeLambdaParser.parse_lambda_string`
(`dynamic_lambda`): if fewer positional arguments arrive than discovered
parameter names, return `""` (explicit fallback); otherwise bind the names
to the arguments in sorted-name order and render the template. -/
def dynamicLambda (rnd : RandomModel) (t : Template) (args : List ℚ) :
    Except String String :=
  let names := extractParams t
  if args.length < names.length then .ok ""
  else renderChunks rnd (names.zip (args.map PyVal.num)) t

/-- A concrete random model used by witnesses. -/
def rndZero : RandomModel :=
  ⟨0, fun a _ => a, fun a _ => a, fun a _ _ => a, fun a _ => a, fun a _ => a⟩

/-- If some placeholder of a template contains a non-whitelisted construct,
the rendering loop fails. -/
theorem renderChunks_errs (rnd : RandomModel) (b : Bindings) :
    ∀ t : Template, (∃ e ∈ holesOf t, unsupported b.keys e = true) →
      isFailure (renderChunks rnd b t) = true := by
  intro t
  induction t with
  | nil => intro h; simp [holesOf] at h
  | cons c rest ih =>
      intro h
      cases c with
      | lit s =>
          have h' : ∃ e ∈ holesOf rest, unsupported b.keys e = true := by
            simpa [holesOf] using h
          cases hr : renderChunks rnd b rest with
          | error e => simp [renderChunks, hr, except_bind_err, isFailure]
          | ok r =>
              have := ih h'
              rw [hr] at this
              exact absurd this (by simp [isFailure])
      | hole e =>
          rcases h with ⟨e', he', hu⟩
          rw [show holesOf (Chunk.hole e :: rest) = e :: holesOf rest from rfl] at he'
          rcases List.mem_cons.mp he' with rfl | hmem
          · cases hv : evalNode rnd b e' with
            | error msg => simp [renderChunks, hv, except_bind_err, isFailure]
            | ok v =>
                have hx := unsupported_evalNode_errs rnd b e' hu
                rw [hv] at hx
                exact absurd hx (by simp [isFailure])
          · cases hv : evalNode rnd b e with
            | error msg => simp [renderChunks, hv, except_bind_err, isFailure]
            | ok v =>
                cases hr : renderChunks rnd b rest with
                | error msg =>
                    simp [renderChunks, hv, hr, except_bind_ok, except_bind_err,
                      isFailure]
                | ok r =>
                    have := ih ⟨e', hmem, hu⟩
                    rw [hr] at this
                    exact absurd this (by simp [isFailure])

/-- C1 (amended).  The whitelist evaluator fails closed: any placeholder
expression containing a construct outside the whitelist (a literal, a bound
parameter name, a whitelisted operator, or an allowed call) makes
`_eval_node` raise rather than produce a value, and a compiled template
callable invoked with enough arguments raises whenever one of its
placeholders contains such a construct.  (The original claim is refuted at
`c1_counterexample`: token-parameter evaluation in
`LSystemMixin._safe_eval_number` *does* delegate to the native `eval`.) -/
theorem c1_placeholder_eval_fails_closed :
    (∀ (rnd : RandomModel) (b : Bindings) (e : PyExpr),
        unsupported b.keys e = true → isFailure (evalNode rnd b e) = true) ∧
    (∀ (rnd : RandomModel) (t : Template) (args : List ℚ),
        (extractParams t).length ≤ args.length →
        (∃ e ∈ holesOf t, unsupported (extractParams t) e = true) →
        isFailure (dynamicLambda rnd t args) = true) := by
  constructor
  · exact fun rnd b e h => unsupported_evalNode_errs rnd b e h
  · intro rnd t args hlen hex
    have hnotlt : ¬ args.length < (extractParams t).length := not_lt.mpr hlen
    have hkeys :
        Bindings.keys ((extractParams t).zip (args.map PyVal.num))
          = extractParams t := by
      unfold Bindings.keys
      exact List.map_fst_zip _ _ (by simpa using hlen)
    unfold dynamicLambda
    rw [if_neg hnotlt]
    exact renderChunks_errs rnd _ t (by rw [hkeys]; exact hex)

/-- C1, witness: a concrete non-whitelisted expression (`1 < 2`, a
comparison) with empty bindings makes the evaluator fail, and a concrete
template whose only placeholder is that comparison fails when invoked. -/
theorem c1_witness :
    (unsupported (Bindings.keys []) (PyExpr.compare (.constant 1) .lt (.constant 2))
        = true ∧
      isFailure (evalNode rndZero []
        (PyExpr.compare (.constant 1) .lt (.constant 2))) = true) ∧
    ((extractParams [Chunk.hole (PyExpr.compare (.constant 1) .lt (.constant 2))]).length
        ≤ ([] : List ℚ).length ∧
      isFailure (dynamicLambda rndZero
        [Chunk.hole (PyExpr.compare (.constant 1) .lt (.constant 2))] []) = true) :=
  ⟨⟨by decide,
    c1_placeholder_eval_fails_closed.1 rndZero []
      (PyExpr.compare (.constant 1) .lt (.constant 2)) (by decide)⟩,
   ⟨by decide,
    c1_placeholder_eval_fails_closed.2 rndZero
      [Chunk.hole (PyExpr.compare (.constant 1) .lt (.constant 2))] []
      (by decide)
      ⟨PyExpr.compare (.constant 1) .lt (.constant 2), by decide, by decide⟩⟩⟩

/-- C1, counterexample to the claim as stated: the comparison `1 < 2` is
outside the whitelist and the whitelist evaluator rejects it, yet
`LSystemMixin._safe_eval_number` — which evaluates token parameter
expressions during rule application — produces the value `1.0` for it, via
its fallback to the native `eval` (the literal backend having failed).  So
not every non-whitelisted parameter expression fails closed, and parameter
evaluation does delegate to a general-purpose evaluation facility. -/
theorem c1_counterexample :
    unsupported [] (PyExpr.compare (.constant 1) .lt (.constant 2)) = true ∧
    isFailure (evalNode rndZero []
      (PyExpr.compare (.constant 1) .lt (.constant 2))) = true ∧
    pyLiteralEval (PyExpr.compare (.constant 1) .lt (.constant 2)) = none ∧
    safe_eval_number (PyExpr.compare (.constant 1) .lt (.constant 2)) = 1 := by
  refine ⟨by decide, by decide, by decide, ?_⟩
  decide

/-- C8: a compiled template callable invoked with fewer positional arguments
than the number of discovered parameter names returns the empty string, not
an error. -/
theorem c8_short_args_empty_string (rnd : RandomModel) (t : Template)
    (args : List ℚ) (h : args.length < (extractParams t).length) :
    dynamicLambda rnd t args = .ok "" := by
  unfold dynamicLambda
  rw [if_pos h]

/-- C8, witness: a one-parameter template invoked with no arguments. -/
theorem c8_witness :
    ([] : List ℚ).length < (extractParams [Chunk.hole (PyExpr.name "x")]).length ∧
    dynamicLambda rndZero [Chunk.hole (PyExpr.name "x")] [] = .ok "" :=
  ⟨by decide,
   c8_short_args_empty_string rndZero [Chunk.hole (PyExpr.name "x")] [] (by decide)⟩

/-! ## Rules and rule selection (src/l_system/system_base.py)

`LSystemMixin.rules` maps a base symbol to a list of
`(replacement, regex_pattern, probability)` triples.  A replacement is a
literal string or a template-compiled callable (`Loader.parse_rule` routes
`is_parametric` rules through `parse_lambda_string`; the docstring's raw
`lambda` examples never occur on the loader path and are not modelled). -/

/-- A rule's replacement: a literal string, or the callable compiled from a
parametric template. -/
inductive Replacement where
  | lit (s : String)
  | parametric (t : Template)
deriving DecidableEq

/-- One entry of a rule list: `(replacement, regex_pattern, probability)`.
The regex pattern plays no role in the claims settled here and is kept as
its source text. -/
structure PRule where
  replacement : Replacement
  pattern : String
  prob : ℚ
deriving DecidableEq

/-- `len(inspect.signature(replacement).parameters)` in `_apply_rule`: a
template-compiled callable is `def dynamic_lambda(*args)`, whose signature
has exactly one parameter (the single `*args` slot) — *not* the number of
parameter names discovered from the template.  (Never consulted for literal
replacements, which return before the introspection.) -/
def inspectSigLen : Replacement → ℕ
  | .lit _ => 0
  | .parametric _ => 1

/-- The argument adjustment of `_apply_rule`: if fewer args than the
introspected parameter count, pad with trailing `1.0`; extra args are left
alone (never truncated). -/
def padArgs (args : List ℚ) (n : ℕ) : List ℚ :=
  if args.length < n then args ++ List.replicate (n - args.length) 1 else args

/-- The replacement-application part of `LSystemMixin._apply_rule`, given
the already-selected replacement and the token's parsed numeric params:
a literal replacement is returned verbatim; a parametric one invokes the
compiled callable on the padded argument list. -/
def applyRule (rnd : RandomModel) (r : Replacement) (params : List ℚ) :
    Except String String :=
  match r with
  | .lit s => .ok s
  | .parametric t => dynamicLambda rnd t (padArgs params (inspectSigLen (.parametric t)))

/-- The accumulation loop of `_pick_rule`: running cumulative sum, first
rule with `p ≤ cumulative` wins. -/
def pickRuleAux : List PRule → ℚ → ℚ → Option PRule
  | [], _, _ => none
  | r :: rs, p, c =>
      if p ≤ c + r.prob then some r else pickRuleAux rs p (c + r.prob)

/-- `LSystemMixin._pick_rule`: a single rule is returned outright (no random
draw); otherwise the cumulative loop runs on a draw `p`, and if it exhausts
(total probability < 1 with `p` in the gap) the last rule is the fallback. -/
def pickRule (rules : List PRule) (p : ℚ) : Option PRule :=
  if rules.length = 1 then rules.head?
  else
    match pickRuleAux rules p 0 with
    | some r => some r
    | none => rules.getLast?

/-- The rules paired with their cumulative probability sums, in list order
(reference form used to state the selection policy). -/
def cumPairs : List PRule → ℚ → List (PRule × ℚ)
  | [], _ => []
  | r :: rs, c => (r, c + r.prob) :: cumPairs rs (c + r.prob)

theorem pickRuleAux_eq_find (p : ℚ) :
    ∀ (rules : List PRule) (c : ℚ),
      pickRuleAux rules p c
        = ((cumPairs rules c).find? (fun rc => p ≤ rc.2)).map Prod.fst := by
  intro rules
  induction rules with
  | nil => intro c; rfl
  | cons r rs ih =>
      intro c
      by_cases h : p ≤ c + r.prob
      · simp [pickRuleAux, cumPairs, List.find?, h]
      · simp only [pickRuleAux, cumPairs, if_neg h]
        rw [ih (c + r.prob)]
        simp [List.find?_cons_of_neg, h]

/-- C3: the probability policy of `_pick_rule`.  A singleton rule list is
always picked (no draw); otherwise probabilities accumulate in list order
and the first rule whose cumulative sum is ≥ `p` wins; if the loop exhausts
(total < 1 and `p` beyond the final sum), the last rule is the fallback; in
particular two rules of probability `0.3` with draw `p = 0.9` select the
last-listed rule. -/
theorem c3_pick_rule_policy :
    (∀ (r : PRule) (p : ℚ), pickRule [r] p = some r) ∧
    (∀ (rules : List PRule) (p : ℚ), rules.length ≠ 1 →
        pickRule rules p
          = match ((cumPairs rules 0).find? (fun rc => p ≤ rc.2)).map Prod.fst with
            | some r => some r
            | none => rules.getLast?) ∧
    (∀ (rules : List PRule) (p : ℚ), rules.length ≠ 1 →
        (cumPairs rules 0).find? (fun rc => p ≤ rc.2) = none →
        pickRule rules p = rules.getLast?) ∧
    (∀ (r1 r2 : PRule), r1.prob = 3/10 → r2.prob = 3/10 →
        pickRule [r1, r2] (9/10) = some r2) := by
  have key : ∀ (rules : List PRule) (p : ℚ), rules.length ≠ 1 →
      pickRule rules p
        = match ((cumPairs rules 0).find? (fun rc => p ≤ rc.2)).map Prod.fst with
          | some r => some r
          | none => rules.getLast? := by
    intro rules p h
    unfold pickRule
    rw [if_neg h, pickRuleAux_eq_find]
  refine ⟨?_, key, ?_, ?_⟩
  · intro r p; simp [pickRule]
  · intro rules p h hnone
    rw [key rules p h, hnone]
    rfl
  · intro r1 r2 h1 h2
    have hlen : ([r1, r2] : List PRule).length ≠ 1 := by simp
    have d1 : ¬ ((9 : ℚ)/10 ≤ 0 + r1.prob) := by rw [h1]; norm_num
    have d2 : ¬ ((9 : ℚ)/10 ≤ 0 + r1.prob + r2.prob) := by rw [h1, h2]; norm_num
    have e1 : (cumPairs [r1, r2] 0).find? (fun rc => (9 : ℚ)/10 ≤ rc.2) = none := by
      simp only [cumPairs]
      rw [List.find?_cons_of_neg _ (by simpa using d1),
        List.find?_cons_of_neg _ (by simpa using d2)]
      rfl
    rw [key [r1, r2] (9/10) hlen, e1]
    rfl

/-- C3, witness: a concrete two-rule list with probabilities `0.3`/`0.3` and
draw `0.9` selects the second rule, and a concrete singleton list is always
selected. -/
theorem c3_witness :
    pickRule [⟨.lit "F", "A", 3/10⟩, ⟨.lit "FF", "A", 3/10⟩] (9/10)
        = some ⟨.lit "FF", "A", 3/10⟩ ∧
    pickRule [⟨.lit "X", "B", 1⟩] (1/2) = some ⟨.lit "X", "B", 1⟩ :=
  ⟨c3_pick_rule_policy.2.2.2 ⟨.lit "F", "A", 3/10⟩ ⟨.lit "FF", "A", 3/10⟩ rfl rfl,
   c3_pick_rule_policy.1 ⟨.lit "X", "B", 1⟩ (1/2)⟩

/-- Template used by the C5 theorems: `FT(<x*0.9>,<y*0.8>)`, which discovers
the two parameter names `x`, `y`. -/
def tplFT : Template :=
  [Chunk.lit "FT(",
   Chunk.hole (PyExpr.binOp .mul (.name "x") (.constant (9/10))),
   Chunk.lit ",",
   Chunk.hole (PyExpr.binOp .mul (.name "y") (.constant (4/5))),
   Chunk.lit ")"]

/-- C5 (amended): `_apply_rule` invokes a parametric rule's callable with
the token's params padded with trailing `1.0` up to the *introspected*
signature length — which for a template-compiled callable is `1`, the
single `*args` slot, not the discovered parameter count.  Params are never
truncated: a non-empty param list is passed through unchanged, an empty one
becomes `[1.0]`, and the passed list always starts with the original
params.  A literal rule's string is returned verbatim. -/
theorem c5_parametric_arg_padding :
    (∀ (rnd : RandomModel) (t : Template) (params : List ℚ),
        applyRule rnd (.parametric t) params
          = dynamicLambda rnd t (padArgs params 1)) ∧
    (∀ (t : Template), inspectSigLen (.parametric t) = 1) ∧
    (∀ (rnd : RandomModel) (t : Template) (params : List ℚ), params ≠ [] →
        applyRule rnd (.parametric t) params = dynamicLambda rnd t params) ∧
    (∀ (rnd : RandomModel) (t : Template),
        applyRule rnd (.parametric t) [] = dynamicLambda rnd t [1]) ∧
    (∀ (args : List ℚ) (n : ℕ), (padArgs args n).take args.length = args) ∧
    (∀ (rnd : RandomModel) (s : String) (params : List ℚ),
        applyRule rnd (.lit s) params = .ok s) := by
  refine ⟨fun _ _ _ => rfl, fun _ => rfl, ?_, fun _ _ => rfl, ?_, fun _ _ _ => rfl⟩
  · intro rnd t params h
    have hlen : ¬ params.length < 1 := by
      simpa [Nat.lt_one_iff, List.length_eq_zero] using h
    show dynamicLambda rnd t (padArgs params 1) = dynamicLambda rnd t params
    rw [padArgs, if_neg hlen]
  · intro args n
    unfold padArgs
    by_cases h : args.length < n
    · rw [if_pos h, List.take_left]
    · rw [if_neg h, List.take_length]

/-- C5, witness: a non-empty param list reaches the callable unchanged, and
padding never truncates a two-param list against arity 1. -/
theorem c5_witness :
    applyRule rndZero (.parametric [Chunk.hole (PyExpr.name "z")]) [5]
        = dynamicLambda rndZero [Chunk.hole (PyExpr.name "z")] [5] ∧
    (padArgs [5, 7] 1).take ([5, 7] : List ℚ).length = [5, 7] :=
  ⟨c5_parametric_arg_padding.2.2.1 rndZero [Chunk.hole (PyExpr.name "z")] [5]
      (by decide),
   c5_parametric_arg_padding.2.2.2.2.1 [5, 7] 1⟩

/-- C5, counterexample to the claim as stated: for the two-parameter
template `FT(<x*0.9>,<y*0.8>)` the discovered parameter count is 2, yet a
token with *no* params is applied as `dynamic_lambda(1.0)` — padded only to
the introspected `*args` arity 1 — so the callable takes the too-few-args
fallback and returns `""`.  Had the args been padded to the discovered
count 2, as the claim states, the call would have rendered a non-empty
string. -/
theorem c5_counterexample :
    (extractParams tplFT).length = 2 ∧
    applyRule rndZero (.parametric tplFT) [] = .ok "" ∧
    dynamicLambda rndZero tplFT (padArgs [] 2) ≠ .ok "" := by
  refine ⟨by decide, rfl, ?_⟩
  intro h
  rw [show dynamicLambda rndZero tplFT (padArgs [] 2)
        = .ok ("FT(" ++ (pyStr (.num (1 * (9/10))) ++ ("," ++
            (pyStr (.num (1 * (4/5))) ++ (")" ++ ""))))) from rfl] at h
  have hlen := congrArg String.length (Except.ok.inj h)
  simp [String.length_append] at hlen
  exact absurd hlen.1 (by decide)

/-! ## Tokenizer (src/utils/tokenizer.py) and token helpers
(src/utils/fractal_regex.py)

`LSystemLexer` walks the character sequence once: brackets are zero-param
tokens, `+`/`-` and each single alphanumeric character start a symbol and
optionally consume a depth-counted parenthesised parameter list, whitespace
and stray characters are skipped.  Parameter texts are kept *verbatim*
(joined back with a comma and a space); the lexer's `try`/`except` around
`params.append` is dead code (appending a string cannot raise).
Python's `isspace`/single-character handling is modelled with
`Char.isWhitespace`; the parameter regexes use ASCII classes, matched
exactly by `Char.isAlphanum`/`Char.isDigit`. -/

/-- Strip leading and trailing whitespace (Python `str.strip`), on the
character list, so that it evaluates by `decide`. -/
def trimChars (cs : List Char) : List Char :=
  ((cs.dropWhile Char.isWhitespace).reverse.dropWhile Char.isWhitespace).reverse

/-- `str.strip` on a string. -/
def pyStrip (s : String) : String := String.mk (trimChars s.data)

/-- Split a character list on a separator character (Python `str.split`
with a one-character separator: `n` separators yield `n + 1` pieces). -/
def splitOnChar (sep : Char) : List Char → List (List Char)
  | [] => [[]]
  | c :: rest =>
      let r := splitOnChar sep rest
      if c = sep then [] :: r
      else
        match r with
        | [] => [[c]]
        | h :: t => (c :: h) :: t

/-- The parameter-reading loop of `LSystemLexer.read_params`, after the
opening parenthesis: walk with a paren depth, splitting the current
parameter text on top-level commas; a parameter is kept if non-blank after
stripping; on end of input mid-parameter the accumulated list is returned
(the trailing unfinished text is dropped, as in the source).  Returns the
parameter texts and the remaining characters. -/
def readParamsLoop : List Char → ℕ → List Char → List String →
    (List String × List Char)
  | [], _, _, acc => (acc, [])
  | c :: rest, depth, cur, acc =>
      if c = '(' then readParamsLoop rest (depth + 1) (cur ++ [c]) acc
      else if c = ')' then
        if depth = 1 then
          (if pyStrip (String.mk cur) ≠ "" then acc ++ [pyStrip (String.mk cur)]
           else acc,
           rest)
        else readParamsLoop rest (depth - 1) (cur ++ [c]) acc
      else if c = ',' ∧ depth = 1 then
        readParamsLoop rest depth []
          (if pyStrip (String.mk cur) ≠ "" then acc ++ [pyStrip (String.mk cur)]
           else acc)
      else readParamsLoop rest depth (cur ++ [c]) acc

/-- `LSystemLexer.read_params`: nothing is consumed unless the next
character is `(`. -/
def readParams : List Char → (List String × List Char)
  | '(' :: rest => readParamsLoop rest 1 [] []
  | cs => ([], cs)

/-- The token text built by `tokenize` for a symbol with parameters:
`symbol(p1, p2, ...)` (the source joins with a comma and a space). -/
def mkTokenText (c : Char) (params : List String) : String :=
  if params ≠ [] then
    String.mk [c] ++ "(" ++ String.intercalate ", " params ++ ")"
  else String.mk [c]

/-- The scanning loop of `LSystemLexer.tokenize`, written with explicit
fuel so that it stays structurally recursive (kernel-reducible).  Every
iteration consumes at least one character, so any fuel above the input
length is enough; `tokenize` passes `length + 1`. -/
def tokenizeFuel : ℕ → List Char → List String
  | 0, _ => []
  | fuel + 1, cs =>
      match cs.dropWhile Char.isWhitespace with
      | [] => []
      | c :: rest =>
          if c = '[' then "[" :: tokenizeFuel fuel rest
          else if c = ']' then "]" :: tokenizeFuel fuel rest
          else if c = '+' ∨ c = '-' ∨ c.isAlphanum then
            let pr := readParams rest
            mkTokenText c pr.1 :: tokenizeFuel fuel pr.2
          else tokenizeFuel fuel rest

/-- `LSystemLexer(sequence).tokenize()`. -/
def tokenize (s : String) : List String :=
  tokenizeFuel (s.data.length + 1) s.data

/-- `fractal_regex.extract_symbol`: the leading structural character, or
the leading ASCII-alphanumeric run, or the whole token when neither
matches. -/
def extract_symbol (tok : String) : String :=
  match tok.data with
  | [] => ""
  | c :: _ =>
      if c = '+' ∨ c = '-' ∨ c = '[' ∨ c = ']' then String.mk [c]
      else
        let run := tok.data.takeWhile Char.isAlphanum
        if run = [] then tok else String.mk run

/-- Value of a decimal digit character. -/
def digitVal (c : Char) : ℕ := c.toNat - '0'.toNat

/-- Numeric value of a digit run. -/
def digitsToNat (ds : List Char) : ℕ :=
  ds.foldl (fun n c => 10 * n + digitVal c) 0

/-- Python's `float()` on an already-stripped string, restricted to plain
decimal syntax: optional sign, digits with at most one dot (at least one
digit overall), optional exponent.  `inf`/`nan`, underscores and other
accepted spellings are outside the modelled fragment (`none`, which the
callers turn into the `0.0` fallback).  The value is assembled with Nat/Int
arithmetic and a single `mkRat` so that it evaluates by `decide`. -/
def pyFloat (s : String) : Option ℚ :=
  let cs := s.data
  let sgn : ℤ := if cs.head? = some '-' then -1 else 1
  let cs1 := if cs.head? = some '-' ∨ cs.head? = some '+' then cs.drop 1 else cs
  let intPart := cs1.takeWhile Char.isDigit
  let cs2 := cs1.dropWhile Char.isDigit
  let fracPart :=
    if cs2.head? = some '.' then (cs2.drop 1).takeWhile Char.isDigit else []
  let cs3 :=
    if cs2.head? = some '.' then (cs2.drop 1).dropWhile Char.isDigit else cs2
  if intPart = [] ∧ fracPart = [] then none
  else
    match cs3 with
    | [] =>
        some (mkRat (sgn * digitsToNat (intPart ++ fracPart))
          (10 ^ fracPart.length))
    | e :: cs4 =>
        if e = 'e' ∨ e = 'E' then
          let esgn : Bool := cs4.head? = some '-'
          let cs5 := if cs4.head? = some '-' ∨ cs4.head? = some '+' then
              cs4.drop 1 else cs4
          let expDigits := cs5.takeWhile Char.isDigit
          if expDigits = [] ∨ cs5.dropWhile Char.isDigit ≠ [] then none
          else
            let ex := digitsToNat expDigits
            let m : ℤ := sgn * digitsToNat (intPart ++ fracPart)
            if esgn then some (mkRat m (10 ^ (fracPart.length + ex)))
            else if fracPart.length ≤ ex then
              some (mkRat (m * 10 ^ (ex - fracPart.length)) 1)
            else some (mkRat m (10 ^ (fracPart.length - ex)))
        else none

/-- The first parenthesised group a `re.search` of `\(([^)]*)\)` finds: the
earliest `(` that has a later `)`, capturing up to the first `)` after it.
(If the first `(` has no later `)`, no later `(` can have one either.) -/
def extractGroup : List Char → Option (List Char)
  | [] => none
  | c :: rest =>
      if c = '(' then
        if rest.contains ')' then some (rest.takeWhile (fun ch => ch ≠ ')'))
        else none
      else extractGroup rest

/-- The comma-separated pieces of a token's parameter group (empty when the
token has no complete group). -/
def paramTexts (tok : String) : List String :=
  match extractGroup tok.data with
  | none => []
  | some inner => (splitOnChar ',' inner).map String.mk

/-- `fractal_regex.parse_params`: no group means no params; otherwise each
comma-piece is stripped, blank pieces are skipped, and each remaining piece
is converted with `float()`, degrading to `0.0` on failure. -/
def parse_params (tok : String) : List ℚ :=
  (paramTexts tok).filterMap (fun p =>
    if pyStrip p = "" then none else some ((pyFloat (pyStrip p)).getD 0))

/-- Every token the lexer produces is a non-empty string (so downstream
`token[0]` accesses cannot fail). -/
theorem tokenize_tokens_ne_nil :
    ∀ (fuel : ℕ) (cs : List Char) (tok : String),
      tok ∈ tokenizeFuel fuel cs → tok.data ≠ [] := by
  intro fuel
  induction fuel with
  | zero => intro cs tok h; simp [tokenizeFuel] at h
  | succ n ih =>
      intro cs tok h
      unfold tokenizeFuel at h
      cases hd : cs.dropWhile Char.isWhitespace with
      | nil => rw [hd] at h; simp at h
      | cons c rest =>
          rw [hd] at h
          dsimp only at h
          by_cases h1 : c = '['
          · rw [if_pos h1] at h
            rcases List.mem_cons.mp h with rfl | hm
            · simp
            · exact ih rest tok hm
          · rw [if_neg h1] at h
            by_cases h2 : c = ']'
            · rw [if_pos h2] at h
              rcases List.mem_cons.mp h with rfl | hm
              · simp
              · exact ih rest tok hm
            · rw [if_neg h2] at h
              by_cases h3 : c = '+' ∨ c = '-' ∨ c.isAlphanum
              · rw [if_pos h3] at h
                have h' : tok = mkTokenText c (readParams rest).1 ∨
                    tok ∈ tokenizeFuel n (readParams rest).2 :=
                  List.mem_cons.mp h
                rcases h' with rfl | hm
                · unfold mkTokenText
                  by_cases hp : (readParams rest).1 ≠ []
                  · rw [if_pos hp]
                    simp [String.data_append]
                  · rw [if_neg hp]
                    simp
                · exact ih (readParams rest).2 tok hm
              · rw [if_neg h3] at h
                exact ih rest tok h

/-- C6 (amended): tokenization is total and every produced token is
non-empty; `parse_params` converts each parameter piece by a float-literal
parse only — each stripped non-blank piece contributes exactly one value,
namely its parsed float or the `0.0` fallback — so every parsed value
either is `0.0` or is the float value of one of the token's parameter
texts.  (The original claim is refuted at `c6_counterexample`: an
arithmetic-expression parameter yields `0.0`, not its computed value, since
no expression evaluation is involved in this path.) -/
theorem c6_param_parsing :
    (∀ (s tok : String), tok ∈ tokenize s → tok.data ≠ []) ∧
    (∀ tok : String,
        parse_params tok
          = ((paramTexts tok).filter (fun p => pyStrip p ≠ "")).map
              (fun p => (pyFloat (pyStrip p)).getD 0)) ∧
    (∀ (tok : String) (v : ℚ), v ∈ parse_params tok →
        v = 0 ∨ ∃ p ∈ paramTexts tok, pyFloat (pyStrip p) = some v) := by
  refine ⟨?_, ?_, ?_⟩
  · intro s tok h
    exact tokenize_tokens_ne_nil _ s.data tok h
  · intro tok
    unfold parse_params
    induction paramTexts tok with
    | nil => rfl
    | cons p ps ih =>
        by_cases hp : pyStrip p = ""
        · simp [List.filterMap_cons, List.filter_cons, hp, ih]
        · simp [List.filterMap_cons, List.filter_cons, hp, ih]
  · intro tok v h
    unfold parse_params at h
    rcases List.mem_filterMap.mp h with ⟨p, hp, heq⟩
    by_cases hble : pyStrip p = ""
    · rw [if_pos hble] at heq; cases heq
    · rw [if_neg hble] at heq
      cases hf : pyFloat (pyStrip p) with
      | none =>
          rw [hf] at heq
          left
          simpa using heq.symm
      | some w =>
          rw [hf] at heq
          right
          exact ⟨p, hp, by rw [hf]; simpa using heq⟩

/-- C6, witness: the token `F(2.5, x)` (as re-joined by the lexer from
`"F(2.5,x)"`) is non-empty, its characterization holds, and the parsed
value `2.5` comes from the float parse of the first parameter text. -/
theorem c6_witness :
    "F(2.5, x)".data ≠ [] ∧
    (mkRat 25 10 = 0 ∨
      ∃ p ∈ paramTexts "F(2.5, x)", pyFloat (pyStrip p) = some (mkRat 25 10)) :=
  ⟨c6_param_parsing.1 "F(2.5,x)" "F(2.5, x)" (by decide),
   c6_param_parsing.2.2 "F(2.5, x)" (mkRat 25 10) (by decide)⟩

/-- C6, counterexample to the claim as stated: for the token `F(2*3)` the
parameter text `2*3` is an arithmetic expression; the claim says it should
evaluate through the safe arithmetic subset to `6.0`, but `parse_params`
only attempts `float()` and degrades it to `0.0`. -/
theorem c6_counterexample :
    tokenize "F(2*3)" = ["F(2*3)"] ∧
    parse_params "F(2*3)" = [0] ∧
    parse_params "F(2*3)" ≠ [6] := by
  refine ⟨by decide, by decide, by decide⟩

/-! ## The token-rewriting generate loop (spec §4.2)

`main.py` imports `System2D` from `l_system/system_2d.py`, which is not
present in the repository checkout; only its caller (`main.py`) and the
`LSystemMixin` base are.  The spec prescribes the tokenize-then-replace
rewrite discipline for `generate` (§4.2, §9) and a defensive length cap
(§5, §7 `IterationOverflow`); the definitions below model that missing
`System2D.generate` from the spec's words, reusing the faithful embeddings
of the tokenizer, rule selection and rule application above. -/

/-- The rule table: base symbol ↦ ordered rule list (`LSystemMixin.rules`;
`add_rules` only ever appends, so the lists are non-empty). -/
abbrev RuleTable := List (String × List PRule)

/-- Rule-table lookup. -/
def lookupRules (table : RuleTable) (base : String) : Option (List PRule) :=
  match table with
  | [] => none
  | (k, rs) :: rest => if k = base then some rs else lookupRules rest base

/-- Modelled from the spec: the probability-draw step of the missing
`System2D.generate` — `_pick_rule` consumes one draw from the random stream
`σ` only when more than one rule is listed (the source returns a singleton
before calling `random.random()`). -/
def pickDraw (rules : List PRule) (σ : ℕ → ℚ) (k : ℕ) : Option PRule × ℕ :=
  if rules.length = 1 then (rules.head?, k)
  else (pickRule rules (σ k), k + 1)

/-- The textual result of applying a selected rule to a token: a literal
replacement verbatim, a parametric one via the compiled callable on the
token's parsed params (cf. `applyRule`).  An evaluation failure — which the
source would propagate as an exception — renders as the empty replacement;
no settled claim exercises that path. -/
def ruleResult (rnd : RandomModel) (r : PRule) (tok : String) : String :=
  match applyRule rnd r.replacement (parse_params tok) with
  | .ok s => s
  | .error _ => ""

/-- Modelled from the spec: one rewrite step of the missing
`System2D.generate` for a single token — look up the base-symbol rules; if
none, the token passes through unchanged; otherwise select one rule via the
probability policy, apply it, and re-tokenize its textual result.  (A
`some []` table entry cannot arise from `add_rules` and passes through.) -/
def rewriteToken (rnd : RandomModel) (table : RuleTable) (σ : ℕ → ℚ)
    (tok : String) (k : ℕ) : List String × ℕ :=
  match lookupRules table (extract_symbol tok) with
  | some (r :: rs) =>
      let sel := pickDraw (r :: rs) σ k
      (tokenize (ruleResult rnd (sel.1.getD r) tok), sel.2)
  | _ => ([tok], k)

/-- Modelled from the spec: one full pass of the missing `System2D.generate`
over the current token sequence — every token is visited exactly once, its
rewrite (or itself) spliced into the new sequence in place. -/
def genPass (rnd : RandomModel) (table : RuleTable) (σ : ℕ → ℚ) :
    List String → ℕ → List String × ℕ
  | [], k => ([], k)
  | tok :: toks, k =>
      let hd := rewriteToken rnd table σ tok k
      let tl := genPass rnd table σ toks hd.2
      (hd.1 ++ tl.1, tl.2)

/-- Modelled from the spec: `iterations` sequential uncapped passes (used to
speak about the sequences produced mid-generation). -/
def genPasses (rnd : RandomModel) (table : RuleTable) (σ : ℕ → ℚ) :
    ℕ → List String → ℕ → List String × ℕ
  | 0, toks, k => (toks, k)
  | n + 1, toks, k =>
      let p := genPass rnd table σ toks k
      genPasses rnd table σ n p.1 p.2

/-- The `IterationOverflow` failure of spec §7. -/
inductive GenError where
  | iterationOverflow
deriving Repr, DecidableEq

/-- Modelled from the spec: the missing `System2D.generate` with the
defensive length cap of §5 — after each pass the new sequence's length is
checked against the configurable cap, and exceeding it surfaces a fatal
`IterationOverflow` instead of continuing. -/
def generateCapped (rnd : RandomModel) (table : RuleTable) (σ : ℕ → ℚ)
    (cap : ℕ) : ℕ → List String → ℕ → Except GenError (List String)
  | 0, toks, _ => .ok toks
  | n + 1, toks, k =>
      let p := genPass rnd table σ toks k
      if cap < p.1.length then .error .iterationOverflow
      else generateCapped rnd table σ cap n p.1 p.2

/-- C2: each pass of `generate` is a one-level splice — it distributes over
concatenation (every token of the current sequence is visited exactly once,
its output spliced in place, and text produced within the pass is never
itself rewritten during that pass), a token with no rules passes through
unchanged, and a token with rules is replaced by the re-tokenized result of
exactly one selected rule. -/
theorem c2_single_pass_splice :
    (∀ (rnd : RandomModel) (table : RuleTable) (σ : ℕ → ℚ)
        (xs ys : List String) (k : ℕ),
        genPass rnd table σ (xs ++ ys) k
          = ((genPass rnd table σ xs k).1
              ++ (genPass rnd table σ ys (genPass rnd table σ xs k).2).1,
             (genPass rnd table σ ys (genPass rnd table σ xs k).2).2)) ∧
    (∀ (rnd : RandomModel) (table : RuleTable) (σ : ℕ → ℚ)
        (tok : String) (k : ℕ),
        lookupRules table (extract_symbol tok) = none →
        genPass rnd table σ [tok] k = ([tok], k)) ∧
    (∀ (rnd : RandomModel) (table : RuleTable) (σ : ℕ → ℚ)
        (tok : String) (k : ℕ) (r : PRule) (rs : List PRule),
        lookupRules table (extract_symbol tok) = some (r :: rs) →
        genPass rnd table σ [tok] k
          = (tokenize (ruleResult rnd ((pickDraw (r :: rs) σ k).1.getD r) tok),
             (pickDraw (r :: rs) σ k).2)) := by
  refine ⟨?_, ?_, ?_⟩
  · intro rnd table σ xs
    induction xs with
    | nil => intro ys k; simp [genPass]
    | cons tok toks ih =>
        intro ys k
        simp only [List.cons_append, genPass, List.append_eq, ih, List.append_assoc]
  · intro rnd table σ tok k h
    simp [genPass, rewriteToken, h]
  · intro rnd table σ tok k r rs h
    simp [genPass, rewriteToken, h]

/-- C2, witness: with the single rule `A → AA`, the pass over `A B` splices
per token, `B` (no rules) passes through, and `A` is replaced by the
re-tokenized result of its one rule. -/
theorem c2_witness :
    genPass rndZero [("A", [⟨.lit "AA", "A", 1⟩])] (fun _ => 0) (["A"] ++ ["B"]) 0
      = ((genPass rndZero [("A", [⟨.lit "AA", "A", 1⟩])] (fun _ => 0) ["A"] 0).1
          ++ (genPass rndZero [("A", [⟨.lit "AA", "A", 1⟩])] (fun _ => 0) ["B"]
              (genPass rndZero [("A", [⟨.lit "AA", "A", 1⟩])] (fun _ => 0) ["A"] 0).2).1,
         (genPass rndZero [("A", [⟨.lit "AA", "A", 1⟩])] (fun _ => 0) ["B"]
             (genPass rndZero [("A", [⟨.lit "AA", "A", 1⟩])] (fun _ => 0) ["A"] 0).2).2) ∧
    genPass rndZero [("A", [⟨.lit "AA", "A", 1⟩])] (fun _ => 0) ["B"] 0 = (["B"], 0) ∧
    genPass rndZero [("A", [⟨.lit "AA", "A", 1⟩])] (fun _ => 0) ["A"] 0
      = (tokenize (ruleResult rndZero
            ((pickDraw [⟨.lit "AA", "A", 1⟩] (fun _ => 0) 0).1.getD ⟨.lit "AA", "A", 1⟩)
            "A"),
         (pickDraw [⟨.lit "AA", "A", 1⟩] (fun _ => 0) 0).2) :=
  ⟨c2_single_pass_splice.1 rndZero [("A", [⟨.lit "AA", "A", 1⟩])] (fun _ => 0)
      ["A"] ["B"] 0,
   c2_single_pass_splice.2.1 rndZero [("A", [⟨.lit "AA", "A", 1⟩])] (fun _ => 0)
      "B" 0 (by decide),
   c2_single_pass_splice.2.2 rndZero [("A", [⟨.lit "AA", "A", 1⟩])] (fun _ => 0)
      "A" 0 ⟨.lit "AA", "A", 1⟩ [] (by decide)⟩

/-- C4: if the sequence produced by some pass within the iteration budget
exceeds the defensive cap — all earlier passes having stayed within it —
then `generate` surfaces the fatal `IterationOverflow` error instead of
continuing to grow the sequence. -/
theorem c4_iteration_overflow :
    ∀ (rnd : RandomModel) (table : RuleTable) (σ : ℕ → ℚ) (cap i n : ℕ)
      (toks : List String) (k : ℕ),
      i < n →
      (∀ j < i, (genPasses rnd table σ (j + 1) toks k).1.length ≤ cap) →
      cap < (genPasses rnd table σ (i + 1) toks k).1.length →
      generateCapped rnd table σ cap n toks k = .error .iterationOverflow := by
  intro rnd table σ cap i
  induction i with
  | zero =>
      intro n toks k hin _ hover
      cases n with
      | zero => exact absurd hin (by omega)
      | succ m =>
          have h1 : (genPasses rnd table σ 1 toks k).1
              = (genPass rnd table σ toks k).1 := rfl
          rw [h1] at hover
          unfold generateCapped
          rw [if_pos hover]
  | succ i ih =>
      intro n toks k hin hbnd hover
      cases n with
      | zero => exact absurd hin (by omega)
      | succ m =>
          have hfirst : (genPass rnd table σ toks k).1.length ≤ cap := by
            have := hbnd 0 (by omega)
            simpa [genPasses] using this
          unfold generateCapped
          rw [if_neg (by omega)]
          refine ih m (genPass rnd table σ toks k).1 (genPass rnd table σ toks k).2
            (by omega) ?_ ?_
          · intro j hj
            have := hbnd (j + 1) (by omega)
            simpa [genPasses] using this
          · simpa [genPasses] using hover

/-- C4, witness: rule `A → AA`, cap 3, two iterations — the first pass
yields 2 tokens (within the cap), the second yields 4 (> 3), and
`generate` reports `IterationOverflow`. -/
theorem c4_witness :
    (1 : ℕ) < 2 ∧
    (∀ j < (1 : ℕ),
      (genPasses rndZero [("A", [⟨.lit "AA", "A", 1⟩])] (fun _ => 0) (j + 1)
          ["A"] 0).1.length ≤ 3) ∧
    3 < (genPasses rndZero [("A", [⟨.lit "AA", "A", 1⟩])] (fun _ => 0) 2
        ["A"] 0).1.length ∧
    generateCapped rndZero [("A", [⟨.lit "AA", "A", 1⟩])] (fun _ => 0) 3 2
        ["A"] 0 = .error .iterationOverflow :=
  ⟨by omega, by decide, by decide,
   c4_iteration_overflow rndZero [("A", [⟨.lit "AA", "A", 1⟩])] (fun _ => 0) 3 1 2
     ["A"] 0 (by omega) (by decide) (by decide)⟩

/-! ## 2-D turtle interpreter (src/drawning/draw_2d.py, `SVGDrawer2D.draw`)

The walk is embedded over an arbitrary linear ordered field `K` with the
trigonometric functions supplied as an explicit `Trig` model — the source
computes with binary floats and `numpy` trig, which are outside a shallow
embedding; every geometric theorem below holds for *any* trig model, with
the concrete facts (`cos (π/2) = 0`, `sin (π/2) = 1`) taken as hypotheses
true of real trigonometry.  Token parameters stay exact rationals (the
output of `parse_params`), cast into `K` where the source multiplies them
into coordinates. -/

/-- The constants `np.pi`, `np.cos`, `np.sin` used by the drawer. -/
structure Trig (K : Type) where
  pi : K
  cos : K → K
  sin : K → K

/-- `np.deg2rad`. -/
def deg2rad {K : Type} [Field K] (T : Trig K) (d : K) : K := d * T.pi / 180

/-- The configuration of an `SVGDrawer2D` (subclasses only change
`drawing_symbols`, `axiom_symbols` and the colour policy `getColor`, which
models the `_get_color` override).  `base_angle` is stored in radians, as
`__init__` does. -/
structure DrawCfg (K : Type) where
  base_width : K
  base_length : K
  base_angle : K
  drawing_symbols : List String
  axiom_symbols : List String
  getColor : String → List ℚ → ℕ → String

/-- One emitted line segment. -/
structure Segment (K : Type) where
  x1 : K
  y1 : K
  x2 : K
  y2 : K
  width : K
  color : String

/-- The interpreter state of `SVGDrawer2D.draw`: emitted segments, the
cursor `(x, y, angle)`, the state stack, the bracket depth, the running
bounding box (all four accumulators initialised to `0`), and the maximum
depth seen at a pop. -/
structure DrawState (K : Type) where
  segments : List (Segment K)
  stack : List (K × K × K)
  depth : ℕ
  x : K
  y : K
  angle : K
  min_x : K
  max_x : K
  min_y : K
  max_y : K
  max_depth : ℕ

/-- Initial state: cursor at the origin heading `π/2` (90°), empty stack,
bounding box accumulators at `0`. -/
def initState {K : Type} [Field K] (T : Trig K) : DrawState K :=
  ⟨[], [], 0, 0, 0, T.pi / 2, 0, 0, 0, 0, 0⟩

/-! One token of the interpreter loop of `SVGDrawer2D.draw` (`step` below),
in the source's
branch order: drawing symbols emit a segment and advance the cursor, `+`/`-`
turn by the token's first param (in degrees) or the base angle, `[` pushes,
`]` pops — a pop on an empty stack is a complete no-op — axiom symbols and
unknown symbols are skipped (the latter with a warning). The helper
definitions name the source's local variables `length`, `width` and `turn`.
-/
/-- `length = base_length * (params[0] if len(params) >= 1 else 1.0)`. -/
def stepLength {K : Type} [LinearOrderedField K] (cfg : DrawCfg K)
    (tok : String) : K :=
  cfg.base_length * (((parse_params tok).getD 0 1 : ℚ) : K)

/-- `width = base_width * (params[1] if len(params) >= 2 else 1.0)`. -/
def stepWidth {K : Type} [LinearOrderedField K] (cfg : DrawCfg K)
    (tok : String) : K :=
  cfg.base_width * (((parse_params tok).getD 1 1 : ℚ) : K)

/-- The turn for a `+`/`-` token: the first param in degrees if present,
else the configured base angle (already radians). -/
def turnAngle {K : Type} [LinearOrderedField K] (cfg : DrawCfg K) (T : Trig K)
    (tok : String) : K :=
  match parse_params tok with
  | [] => cfg.base_angle
  | p :: _ => deg2rad T ((p : ℚ) : K)

def step {K : Type} [LinearOrderedField K] (cfg : DrawCfg K) (T : Trig K)
    (s : DrawState K) (tok : String) : DrawState K :=
  if extract_symbol tok ∈ cfg.drawing_symbols then
    { s with
      segments := s.segments ++
        [⟨s.x, s.y, s.x + stepLength cfg tok * T.cos s.angle,
          s.y + stepLength cfg tok * T.sin s.angle, stepWidth cfg tok,
          cfg.getColor (extract_symbol tok) (parse_params tok) s.depth⟩]
      min_x := min (min s.min_x s.x) (s.x + stepLength cfg tok * T.cos s.angle)
      max_x := max (max s.max_x s.x) (s.x + stepLength cfg tok * T.cos s.angle)
      min_y := min (min s.min_y s.y) (s.y + stepLength cfg tok * T.sin s.angle)
      max_y := max (max s.max_y s.y) (s.y + stepLength cfg tok * T.sin s.angle)
      x := s.x + stepLength cfg tok * T.cos s.angle
      y := s.y + stepLength cfg tok * T.sin s.angle }
  else if extract_symbol tok = "+" then
    { s with angle := s.angle + turnAngle cfg T tok }
  else if extract_symbol tok = "-" then
    { s with angle := s.angle - turnAngle cfg T tok }
  else if extract_symbol tok = "[" then
    { s with stack := (s.x, s.y, s.angle) :: s.stack, depth := s.depth + 1 }
  else if extract_symbol tok = "]" then
    match s.stack with
    | [] => s
    | (px, py, pa) :: rest =>
        { s with
          x := px
          y := py
          angle := pa
          stack := rest
          max_depth := max s.max_depth s.depth
          depth := s.depth - 1 }
  else s

/-- The full interpretation pass of `SVGDrawer2D.draw` over a token list. -/
def drawRun {K : Type} [LinearOrderedField K] (cfg : DrawCfg K) (T : Trig K)
    (tokens : List String) : DrawState K :=
  tokens.foldl (step cfg T) (initState T)

/-- C9: processing a `]` token on an empty stack is a complete no-op — the
state (cursor, heading, depth, segments, bounding box) is exactly what it
was, and interpretation of the remaining tokens continues from that same
state.  (The hypothesis that `]` is not configured as a drawing symbol holds
for every drawer in the repository.) -/
theorem c9_pop_on_empty_stack_noop {K : Type} [LinearOrderedField K]
    (cfg : DrawCfg K) (T : Trig K) (s : DrawState K) (tok : String)
    (rest : List String)
    (h1 : s.stack = []) (h2 : extract_symbol tok = "]")
    (h3 : "]" ∉ cfg.drawing_symbols) :
    step cfg T s tok = s ∧
    List.foldl (step cfg T) s (tok :: rest) = List.foldl (step cfg T) s rest := by
  have hstep : step cfg T s tok = s := by
    unfold step
    rw [h2]
    rw [if_neg h3]
    rw [if_neg (by decide : ¬ ("]" : String) = "+")]
    rw [if_neg (by decide : ¬ ("]" : String) = "-")]
    rw [if_neg (by decide : ¬ ("]" : String) = "[")]
    rw [if_pos rfl, h1]
  exact ⟨hstep, by rw [List.foldl_cons, hstep]⟩

/-- C9, witness: a `]` at the origin state (nothing ever pushed) leaves the
state untouched and interpretation continues. -/
theorem c9_witness :
    step (⟨1, 10, 0, ["F"], ["A"], fun _ _ _ => "g"⟩ : DrawCfg ℚ)
        ⟨0, fun _ => 0, fun _ => 0⟩
        (initState ⟨0, fun _ => 0, fun _ => 0⟩) "]"
      = initState ⟨0, fun _ => 0, fun _ => 0⟩ ∧
    List.foldl (step (⟨1, 10, 0, ["F"], ["A"], fun _ _ _ => "g"⟩ : DrawCfg ℚ)
        ⟨0, fun _ => 0, fun _ => 0⟩) (initState ⟨0, fun _ => 0, fun _ => 0⟩)
        ["]", "F"]
      = List.foldl (step (⟨1, 10, 0, ["F"], ["A"], fun _ _ _ => "g"⟩ : DrawCfg ℚ)
        ⟨0, fun _ => 0, fun _ => 0⟩) (initState ⟨0, fun _ => 0, fun _ => 0⟩)
        ["F"] :=
  c9_pop_on_empty_stack_noop
    (⟨1, 10, 0, ["F"], ["A"], fun _ _ _ => "g"⟩ : DrawCfg ℚ)
    ⟨0, fun _ => 0, fun _ => 0⟩
    (initState ⟨0, fun _ => 0, fun _ => 0⟩) "]" ["F"]
    rfl (by decide) (by decide)

/-- A single interpreter step never shrinks the bounding box. -/
theorem step_bbox_mono {K : Type} [LinearOrderedField K] (cfg : DrawCfg K)
    (T : Trig K) (s : DrawState K) (tok : String) :
    (step cfg T s tok).min_x ≤ s.min_x ∧ s.max_x ≤ (step cfg T s tok).max_x ∧
    (step cfg T s tok).min_y ≤ s.min_y ∧ s.max_y ≤ (step cfg T s tok).max_y := by
  unfold step
  refine ⟨?_, ?_, ?_, ?_⟩ <;>
    (repeat' split) <;>
    first
      | exact le_trans (min_le_left _ _) (min_le_left _ _)
      | exact le_trans (le_max_left _ _) (le_max_left _ _)
      | exact le_refl _

/-- The interpretation fold never shrinks the bounding box. -/
theorem foldl_bbox_mono {K : Type} [LinearOrderedField K] (cfg : DrawCfg K)
    (T : Trig K) :
    ∀ (tokens : List String) (s : DrawState K),
      (List.foldl (step cfg T) s tokens).min_x ≤ s.min_x ∧
      s.max_x ≤ (List.foldl (step cfg T) s tokens).max_x ∧
      (List.foldl (step cfg T) s tokens).min_y ≤ s.min_y ∧
      s.max_y ≤ (List.foldl (step cfg T) s tokens).max_y := by
  intro tokens
  induction tokens with
  | nil => intro s; exact ⟨le_refl _, le_refl _, le_refl _, le_refl _⟩
  | cons tok rest ih =>
      intro s
      rw [List.foldl_cons]
      obtain ⟨m1, m2, m3, m4⟩ := step_bbox_mono cfg T s tok
      obtain ⟨i1, i2, i3, i4⟩ := ih (step cfg T s tok)
      exact ⟨le_trans i1 m1, le_trans m2 i2, le_trans i3 m3, le_trans m4 i4⟩

/-- C10: the bounding box computed during interpretation always contains
the origin — `min_x ≤ 0 ≤ max_x` and `min_y ≤ 0 ≤ max_y` hold at the end of
every pass, whatever the tokens, because the four accumulators are
initialised to `0` and only monotonically widened. -/
theorem c10_bbox_contains_origin {K : Type} [LinearOrderedField K]
    (cfg : DrawCfg K) (T : Trig K) (tokens : List String) :
    (drawRun cfg T tokens).min_x ≤ 0 ∧ 0 ≤ (drawRun cfg T tokens).max_x ∧
    (drawRun cfg T tokens).min_y ≤ 0 ∧ 0 ≤ (drawRun cfg T tokens).max_y := by
  obtain ⟨m1, m2, m3, m4⟩ := foldl_bbox_mono cfg T tokens (initState T)
  exact ⟨m1, m2, m3, m4⟩

/-- The drawer configuration of end-to-end scenario 1: a default
`SVGDrawer2D` with `base_length = 10`, `base_width = 1`,
`base_angle = 25°` (stored in radians), drawing symbol `F`, axiom symbol
`A`, uniform gray colour. -/
def cfg7 {K : Type} [LinearOrderedField K] (T : Trig K) : DrawCfg K :=
  ⟨1, 10, deg2rad T 25, ["F"], ["A"], fun _ _ _ => "rgb(50, 50, 50)"⟩

/-- C7 (amended): for axiom `A` with the single rule `A → F[+A][-A]` at
probability 1, one generation pass yields exactly the token list
`F [ + A ] [ - A ]` — which has **9** tokens — and interpreting it with
baseLength 10 and baseAngle 25° emits exactly one segment, from the origin
to `(0, 10)`: length 10 along the initial 90° heading.  The trigonometric
facts `cos (π/2) = 0` and `sin (π/2) = 1`, true of real trigonometry, are
hypotheses on the abstract trig model. -/
theorem c7_scenario1 {K : Type} [LinearOrderedField K] (T : Trig K)
    (h1 : T.cos (T.pi / 2) = 0) (h2 : T.sin (T.pi / 2) = 1) :
    (genPasses rndZero [("A", [⟨.lit "F[+A][-A]", "A", 1⟩])] (fun _ => 0) 1
        (tokenize "A") 0).1
      = ["F", "[", "+", "A", "]", "[", "-", "A", "]"] ∧
    (drawRun (cfg7 T) T ["F", "[", "+", "A", "]", "[", "-", "A", "]"]).segments
      = [⟨0, 0, 0, 10, 1, "rgb(50, 50, 50)"⟩] := by
  refine ⟨by decide, ?_⟩
  have hpp : parse_params "F" = [] := by decide
  have hx : (0 : K) + stepLength (cfg7 T) "F" * T.cos (T.pi / 2) = 0 := by
    simp [stepLength, cfg7, hpp, h1]
  have hy : (0 : K) + stepLength (cfg7 T) "F" * T.sin (T.pi / 2) = 10 := by
    simp [stepLength, cfg7, hpp, h2]
  have hw : stepWidth (cfg7 T) "F" = (1 : K) := by
    simp [stepWidth, cfg7, hpp]
  have eF : step (cfg7 T) T (initState T) "F"
      = ⟨[⟨0, 0, 0, 10, 1, "rgb(50, 50, 50)"⟩], [], 0, 0, 10, T.pi / 2,
          min (min 0 0) 0, max (max 0 0) 0, min (min 0 0) 10, max (max 0 0) 10,
          0⟩ := by
    unfold step
    rw [if_pos (show extract_symbol "F" ∈ (cfg7 T).drawing_symbols from by
      show extract_symbol "F" ∈ ["F"]; decide)]
    simp only [initState]
    rw [show (cfg7 T).getColor (extract_symbol "F") (parse_params "F") 0
        = "rgb(50, 50, 50)" from rfl]
    rw [hx, hy, hw]
    simp
  simp only [drawRun, List.foldl_cons, List.foldl_nil]
  rw [eF]
  rfl

/-- C7, witness: a concrete rational trig model satisfying the two
hypotheses (`pi := 2`, `cos 1 = 0`, `sin 1 = 1`) realises the scenario. -/
theorem c7_witness :
    (genPasses rndZero [("A", [⟨.lit "F[+A][-A]", "A", 1⟩])] (fun _ => 0) 1
        (tokenize "A") 0).1
      = ["F", "[", "+", "A", "]", "[", "-", "A", "]"] ∧
    (drawRun
        (cfg7 (⟨2, fun q => if q = 1 then 0 else 1,
          fun q => if q = 1 then 1 else 0⟩ : Trig ℚ))
        ⟨2, fun q => if q = 1 then 0 else 1, fun q => if q = 1 then 1 else 0⟩
        ["F", "[", "+", "A", "]", "[", "-", "A", "]"]).segments
      = [⟨0, 0, 0, 10, 1, "rgb(50, 50, 50)"⟩] :=
  c7_scenario1
    (⟨2, fun q => if q = 1 then 0 else 1, fun q => if q = 1 then 1 else 0⟩ :
      Trig ℚ)
    (by norm_num) (by norm_num)

/-- C7, counterexample to the claim as stated: the generated token list
`F [ + A ] [ - A ]` has 9 tokens, not 8. -/
theorem c7_counterexample :
    (genPasses rndZero [("A", [⟨.lit "F[+A][-A]", "A", 1⟩])] (fun _ => 0) 1
        (tokenize "A") 0).1.length = 9 ∧
    ¬ (genPasses rndZero [("A", [⟨.lit "F[+A][-A]", "A", 1⟩])] (fun _ => 0) 1
        (tokenize "A") 0).1.length = 8 :=
  ⟨by decide, by decide⟩
